import Mathlib

/-
Verification of the BoltaClaw self-hosted runner against its specification.

The development shallowly embeds the protocol core of the repository:
  * `ws-client.js` (WSClient: transport channel, reconnection backoff,
    frame parsing, send gating) — source appended in README.md;
  * `bridge.js` (Bridge: job coordinator, handshake, reconnect auth)
    — src/unnamed/part_003; the Runner class in src/openclaw.js has the
    same terminal job logic;
  * `config.js` (Config: env-over-SQLite lookup) — src/unnamed/part_005;
  * `db.js` (LocalDB: jobs table with TEXT PRIMARY KEY, config table).

JavaScript values that matter to the claims (JSON.parse results,
truthiness, property access) are modelled by the `JVal` type.  Stateful
classes become explicit state types with step functions over event
traces; socket/timer callbacks become trace events.
-/

namespace BoltaClaw

/-- JSON values as produced by JSON.parse: null, booleans, numbers
(integer-valued suffices for the claims), strings, arrays, objects. -/
inductive JVal where
| null : JVal
| bool (b : Bool) : JVal
| num (n : Int) : JVal
| str (s : String) : JVal
| arr (elems : List JVal) : JVal
| obj (fields : List (String × JVal)) : JVal

/-- JavaScript truthiness of a JSON value (`if (x)`, `x || y`):
null, false, 0 and the empty string are falsy; arrays and objects are
always truthy. -/
def JVal.truthy : JVal → Bool
| .null => false
| .bool b => b
| .num n => n != 0
| .str s => s != ""
| .arr _ => true
| .obj _ => true

/-- First value bound to a key in an association list (used for JS
object property lookup and for SQLite tables keyed by a PRIMARY KEY). -/
def lookupA {α : Type} : List (String × α) → String → Option α
| [], _ => none
| (k', v) :: rest, k => if k' = k then some v else lookupA rest k

/-- Key update à la `Map.set` / SQL `INSERT OR REPLACE`: binds the key,
removing any previous binding. -/
def setA {α : Type} (l : List (String × α)) (k : String) (v : α) : List (String × α) :=
  (k, v) :: l.filter (fun p => p.1 != k)

/-- Key removal à la `Map.delete` / SQL `DELETE ... WHERE key = ?`. -/
def eraseA {α : Type} (l : List (String × α)) (k : String) : List (String × α) :=
  l.filter (fun p => p.1 != k)

/-- Row update à la SQL `UPDATE ... WHERE id = ?`: applies the update to
every row whose key matches; rows with other keys are untouched, and a
missing key makes the statement a no-op affecting zero rows. -/
def updateA {α : Type} (l : List (String × α)) (k : String) (f : α → α) : List (String × α) :=
  l.map (fun p => (p.1, if p.1 = k then f p.2 else p.2))

/-- Property access `msg.field`: `none` models JS `undefined` (receiver
is not an object, or the field is absent). -/
def JVal.getField : JVal → String → Option JVal
| .obj fields, k => lookupA fields k
| _, _ => none

/- ### Transport Channel: WSClient (ws-client.js) -/

/-- Backoff schedule, `RECONNECT_DELAYS` in ws-client.js. -/
def RECONNECT_DELAYS : List Nat := [1000, 2000, 5000, 10000, 30000]

/-- Delay picked by `WSClient._reconnect`:
`RECONNECT_DELAYS[Math.min(this.reconnectAttempt, RECONNECT_DELAYS.length - 1)]`. -/
def reconnectDelay (attempt : Nat) : Nat :=
  RECONNECT_DELAYS.getD (min attempt (RECONNECT_DELAYS.length - 1)) 0

/-- Observable effects of the WSClient event handlers. -/
inductive WOut where
| connectResolved : WOut
| reconnectedEmitted : WOut
| scheduled (delayMs : Nat) : WOut
| emitted (name : JVal) (data : JVal) : WOut
| parseErrorLogged : WOut
| errorLogged : WOut
| connectRejected : WOut
| closedSocket (code : Nat) : WOut

/-- The ws `message` handler of `WSClient.connect`: try JSON.parse; on
failure log and drop; on success emit `msg.type` with `msg.data || {}`
when `msg.type` is truthy, else do nothing.  A parsed `null` is also
caught by the same try/catch, because `msg.type` then throws a
TypeError. -/
def handleMessage (parsed : Except Unit JVal) : List WOut :=
  match parsed with
  | .error _ => [.parseErrorLogged]
  | .ok .null => [.parseErrorLogged]
  | .ok msg =>
    match msg.getField "type" with
    | some t =>
      if t.truthy then
        [.emitted t (match msg.getField "data" with
                     | some d => if d.truthy then d else .obj []
                     | none => .obj [])]
      else []
    | none => []

/-- EventEmitter delivery: an emitted event reaches exactly the handlers
registered under its (string) name; an event with no registered handlers
is dropped.  Handlers are identified by numbers. -/
def emitDeliver (subs : List (String × Nat)) (name : JVal) (data : JVal) : List (Nat × JVal) :=
  match name with
  | .str s => (subs.filter (fun p => p.1 == s)).map (fun p => (p.2, data))
  | _ => []

/-- ws socket readyState values. -/
inductive ReadyState where
| connecting : ReadyState
| opened : ReadyState
| closing : ReadyState
| closed : ReadyState
deriving DecidableEq

/-- `WSClient.send(type, data)`: writes `JSON.stringify({type, data})`
only when `this.ws?.readyState === WebSocket.OPEN`; otherwise it returns
without writing and without throwing.  The written frame is modelled as
the `{type, data}` object being serialized. -/
def wsSend (ws : Option ReadyState) (ty : String) (data : JVal) : List JVal :=
  match ws with
  | some .opened => [.obj [("type", .str ty), ("data", data)]]
  | _ => []

/-- Mutable state of a WSClient instance. -/
structure WState where
  connected : Bool
  reconnectAttempt : Nat
  shouldReconnect : Bool
deriving DecidableEq

/-- WSClient state at construction. -/
def WState.init : WState :=
  { connected := false, reconnectAttempt := 0, shouldReconnect := true }

/-- Events hitting a WSClient instance: the socket handlers registered
in `connect()` (`open`, `message`, `close`, `error`), the public
`close()` call, and the firing of a reconnect timer set by
`_reconnect` (whose nested `connect()` attempt either reaches `open`
— emitting `reconnected` — or fails, in which case the new socket's
own `close` event arrives separately). -/
inductive WEvent where
| sockOpen : WEvent
| sockMessage (parsed : Except Unit JVal) : WEvent
| sockClose : WEvent
| sockError : WEvent
| closeCall : WEvent
| reconnectTimer (success : Bool) : WEvent

/-- One WSClient event handler, straight from ws-client.js:
`open` sets connected and resets the attempt counter; `close` clears
connected and, iff `shouldReconnect`, runs `_reconnect` (delay from the
current counter, counter incremented before the wait is scheduled);
`error` rejects the pending connect promise only when not yet connected;
`close()` flips `shouldReconnect` off and closes with code 1000; a
successful reconnect timer goes through the `open` handler and then
emits `reconnected`. -/
def wstep (s : WState) (e : WEvent) : WState × List WOut :=
  match e with
  | .sockOpen =>
    ({ s with connected := true, reconnectAttempt := 0 }, [.connectResolved])
  | .sockMessage p => (s, handleMessage p)
  | .sockClose =>
    if s.shouldReconnect then
      ({ connected := false, reconnectAttempt := s.reconnectAttempt + 1,
         shouldReconnect := s.shouldReconnect },
       [.scheduled (reconnectDelay s.reconnectAttempt)])
    else
      ({ s with connected := false }, [])
  | .sockError => (s, if s.connected then [.errorLogged] else [.connectRejected])
  | .closeCall => ({ s with shouldReconnect := false }, [.closedSocket 1000])
  | .reconnectTimer true =>
    ({ s with connected := true, reconnectAttempt := 0 }, [.reconnectedEmitted])
  | .reconnectTimer false => (s, [])

/-- Run a WSClient through a list of events, collecting all effects. -/
def wrun (s : WState) : List WEvent → WState × List WOut
| [] => (s, [])
| e :: rest =>
  let step := wstep s e
  let tail := wrun step.1 rest
  (tail.1, step.2 ++ tail.2)

/- ### Credential/Config store: Config (src/unnamed/part_005) over LocalDB (db.js) -/

/-- Process environment: variable name to value.  A set variable may
hold the empty string. -/
abbrev Env := List (String × String)

/-- SQLite `config` table (key TEXT PRIMARY KEY, value TEXT NOT NULL). -/
abbrev CfgDB := List (String × String)

/-- Truthy environment read `process.env[k] && ...`-style: the guards in
`Config.get` only accept a variable that is set to a non-empty string. -/
def envTruthy (env : Env) (k : String) : Option String :=
  match lookupA env k with
  | some v => if v = "" then none else some v
  | none => none

/-- Uppercased/underscored form of a key computed in `Config.get`:
`key.toUpperCase().replace(/[^A-Z0-9]/g, '_')`. -/
def envKeyOf (k : String) : String :=
  String.mk (k.data.map (fun c =>
    let u := c.toUpper
    if ('A' ≤ u ∧ u ≤ 'Z') ∨ ('0' ≤ u ∧ u ≤ '9') then u else '_'))

/-- The `boltaEnvMap` alias table in `Config.get`. -/
def boltaEnvMap (key : String) : Option String :=
  lookupA [("install_token", "BOLTA_TOKEN"),
           ("ANTHROPIC_API_KEY", "ANTHROPIC_API_KEY"),
           ("OPENAI_API_KEY", "OPENAI_API_KEY"),
           ("TELEGRAM_BOT_TOKEN", "TELEGRAM_BOT_TOKEN")] key

/-- `LocalDB.getConfig`: `row?.value || null` — a stored empty string is
normalized to null. -/
def getConfig (db : CfgDB) (key : String) : Option String :=
  match lookupA db key with
  | some v => if v = "" then none else some v
  | none => none

/-- `LocalDB.setConfig`: `INSERT OR REPLACE INTO config`. -/
def setConfig (db : CfgDB) (key value : String) : CfgDB := setA db key value

/-- `LocalDB.deleteConfig`: `DELETE FROM config WHERE key = ?` —
deleting an absent key affects zero rows and is not an error. -/
def deleteConfig (db : CfgDB) (key : String) : CfgDB := eraseA db key

/-- `Config.get(key)`: the identically-named env var, then its
uppercased/underscored form, then the Bolta alias — each accepted only
when truthy — and otherwise the SQLite value. -/
def configGet (env : Env) (db : CfgDB) (key : String) : Option String :=
  match envTruthy env key with
  | some v => some v
  | none =>
    match envTruthy env (envKeyOf key) with
    | some v => some v
    | none =>
      match (boltaEnvMap key).bind (envTruthy env) with
      | some v => some v
      | none => getConfig db key

/-- JS `a || b` on nullable strings: `a` when truthy, else `b`. -/
def jsOr (a b : Option String) : Option String :=
  match a with
  | some v => if v = "" then b else some v
  | none => b

/- ### Bridge (src/unnamed/part_003): session, handshake, job coordination -/

/-- `config.get('runner_key') || config.get('install_token')`, the
credential expression of `Bridge.connect` and its reconnected handler. -/
def currentTokenOf (env : Env) (db : CfgDB) : Option String :=
  jsOr (configGet env db "runner_key") (configGet env db "install_token")

/-- Truthiness of a nullable string (`if (data.runner_key)`). -/
def optTruthy (v : Option String) : Bool :=
  match v with
  | some s => s != ""
  | none => false

/-- Fields of a handshake_complete payload as read by
`Bridge._onHandshake` (each may be absent; the cloud-config payload is
forwarded to applyCloudConfig and does not touch this store). -/
structure HandshakeData where
  runner_key : Option String
  workspace_id : Option String
  api_key : Option String

/-- `Bridge._onHandshake` effect on the config store: a truthy
runner_key is stored and the install token is burned
(`config.set('runner_key', ...)` then `config.delete('install_token')`);
a truthy workspace_id and api_key are stored. -/
def onHandshake (db : CfgDB) (data : HandshakeData) : CfgDB :=
  let db1 := if optTruthy data.runner_key then
      deleteConfig (setConfig db "runner_key" (data.runner_key.getD "")) "install_token"
    else db
  let db2 := if optTruthy data.workspace_id then
      setConfig db1 "workspace_id" (data.workspace_id.getD "")
    else db1
  if optTruthy data.api_key then setConfig db2 "BOLTA_API_KEY" (data.api_key.getD "") else db2

/-- Outbound Bridge messages (the ws.send calls relevant to the
claims). -/
inductive OutMsg where
| auth (token : String) : OutMsg
| progress (job_id agent_slug : String) : OutMsg
| complete (job_id output : String) : OutMsg
| failed (job_id error_message : String) : OutMsg
deriving DecidableEq

/-- The `reconnected` handler registered by `Bridge.connect`: re-read
the credential, send auth only when one is truthy, otherwise do nothing
— no throw and no close. -/
def onReconnected (env : Env) (db : CfgDB) : List OutMsg :=
  match currentTokenOf env db with
  | some t => if t = "" then [] else [.auth t]
  | none => []

/-- The fail-fast credential check at the top of `Bridge.connect`
(`if (!token) throw new Error('No authentication token available')`),
followed — once the socket opens — by the initial auth send. -/
def bridgeConnect (env : Env) (db : CfgDB) : Except String (List OutMsg) :=
  match currentTokenOf env db with
  | some t =>
    if t = "" then .error "No authentication token available"
    else .ok [.auth t]
  | none => .error "No authentication token available"

/-- Row of the `jobs` table (id TEXT PRIMARY KEY, workspace_id TEXT NOT
NULL, agent_slug, status, input, output, error).  `input` is written at
creation and untouched by updates. -/
structure JobRow where
  workspace : String
  agent_slug : String
  status : String
  inp : String
  outp : Option String
  err : Option String
deriving DecidableEq

/-- `LocalDB.createJob`: a plain INSERT that throws a SqliteError when a
row with the same id already exists (PRIMARY KEY) or when the bound
workspace id is null (NOT NULL constraint). -/
def createJob (store : List (String × JobRow)) (id : String) (workspaceId : Option String)
    (agentSlug : String) (inp : String) : Except Unit (List (String × JobRow)) :=
  match workspaceId with
  | none => .error ()
  | some w =>
    match lookupA store id with
    | some _ => .error ()
    | none => .ok ((id, ⟨w, agentSlug, "running", inp, none, none⟩) :: store)

/-- `LocalDB.updateJob`: one unconditional UPDATE of status, output and
error (output and error default to null) for the matching id; an absent
id makes it affect zero rows. -/
def updateJob (store : List (String × JobRow)) (id status : String)
    (outp err : Option String) : List (String × JobRow) :=
  updateA store id (fun row => { row with status := status, outp := outp, err := err })

/-- In-memory active-job entry
(`activeJobs.set(job_id, { status: 'running', started, agent_slug })`);
`cancelled` is the flag set by `_onJobCancel` and read nowhere. -/
structure ActiveJob where
  status : String
  agent_slug : String
  cancelled : Bool
deriving DecidableEq

/-- Bridge job-coordination state: the in-memory active map, the `jobs`
table, and the set of job ids whose executor call has not yet settled
(the dispatch handler suspended at its `await`). -/
structure BState where
  active : List (String × ActiveJob)
  store : List (String × JobRow)
  pending : List String
deriving DecidableEq

/-- Bridge state before any job traffic. -/
def BState.init : BState := ⟨[], [], []⟩

/-- Executor settlement: `result.success` with its output, or a failure
(executor throw, timeout, or `success:false` — all three routed through
the same catch block by `throw new Error(result.error || ...)`). -/
inductive ExecOutcome where
| ok (output : String) : ExecOutcome
| err (message : String) : ExecOutcome
deriving DecidableEq

/-- Events driving the job coordinator: a job_dispatch frame, a
job_cancel frame, and the settlement of a pending executor call.  The
`conn` flag records whether the socket is open at that moment
(`ws.send` silently drops the write when it is not). -/
inductive BEvent where
| dispatch (job_id agent_slug inp : String) (conn : Bool) : BEvent
| cancel (job_id : String) : BEvent
| resolve (job_id : String) (r : ExecOutcome) (conn : Bool) : BEvent

/-- Observable effects of the job coordinator: a `createJob` call (which
may throw), the start of an executor call, an attempted `ws.send` (with
whether the socket was open, i.e. whether the frame was written), and an
error escaping the dispatch handler (an unhandled promise rejection —
the `job_dispatch` listener does not catch it). -/
inductive BOut where
| createJobCalled (job_id : String) : BOut
| execStarted (job_id : String) : BOut
| sentMsg (m : OutMsg) (written : Bool) : BOut
| uncaughtError (job_id : String) : BOut
deriving DecidableEq

/-- One job-coordination event of the Bridge, from src/unnamed/part_003
(the Runner class in src/openclaw.js has the same structure).
`dispatch` is `_onJobDispatch` up to its `await`: `createJob` (no
duplicate check — a constraint violation escapes the handler), then
`activeJobs.set`, the starting `job_progress` send, and the executor
invocation.  `cancel` is `_onJobCancel`: for an active job, set the
`cancelled` flag, delete the map entry, write status cancelled.
`resolve` is the continuation after the `await`: send `job_complete` or
`job_failed`, write the corresponding status, and delete the map entry
(in `finally`) — with no look at the cancelled flag or the stored
status.  `wsid` is what `config.get('workspace_id')` returns. -/
def bstep (wsid : Option String) (s : BState) (e : BEvent) : BState × List BOut :=
  match e with
  | .dispatch j a inp conn =>
    match createJob s.store j wsid a inp with
    | .error _ => (s, [.createJobCalled j, .uncaughtError j])
    | .ok store1 =>
      ({ active := setA s.active j ⟨"running", a, false⟩,
         store := store1,
         pending := j :: s.pending },
       [.createJobCalled j, .sentMsg (.progress j a) conn, .execStarted j])
  | .cancel j =>
    match lookupA s.active j with
    | some _ =>
      ({ active := eraseA s.active j,
         store := updateJob s.store j "cancelled" none none,
         pending := s.pending }, [])
    | none => (s, [])
  | .resolve j r conn =>
    if j ∈ s.pending then
      let s1 : BState := { s with pending := s.pending.filter (fun x => x != j) }
      match r with
      | .ok out =>
        ({ s1 with store := updateJob s1.store j "complete" (some out) none,
                   active := eraseA s1.active j },
         [.sentMsg (.complete j out) conn])
      | .err m =>
        ({ s1 with store := updateJob s1.store j "failed" none (some m),
                   active := eraseA s1.active j },
         [.sentMsg (.failed j m) conn])
    else (s, [])

/-- Run the job coordinator over an event trace, collecting effects. -/
def brun (wsid : Option String) (s : BState) : List BEvent → BState × List BOut
| [] => (s, [])
| e :: rest =>
  let step := bstep wsid s e
  let tail := brun wsid step.1 rest
  (tail.1, step.2 ++ tail.2)

/-- Stored status of a job. -/
def statusOf (s : BState) (j : String) : Option String :=
  (lookupA s.store j).map (fun r => r.status)

/-- Does the effect send a terminal message (job_complete or job_failed)
for the given job? -/
def isTermSendFor (j : String) : BOut → Bool
| .sentMsg (.complete j' _) _ => j' == j
| .sentMsg (.failed j' _) _ => j' == j
| _ => false

/-- Does the effect send job_complete for the given job? -/
def isCompleteSendFor (j : String) : BOut → Bool
| .sentMsg (.complete j' _) _ => j' == j
| _ => false

/-- Does the effect send job_failed for the given job? -/
def isFailedSendFor (j : String) : BOut → Bool
| .sentMsg (.failed j' _) _ => j' == j
| _ => false

/-- Does the effect call createJob for the given job? -/
def isCreateCallFor (j : String) : BOut → Bool
| .createJobCalled j' => j' == j
| _ => false

/-- Does the effect start an executor call for the given job? -/
def isExecStartFor (j : String) : BOut → Bool
| .execStarted j' => j' == j
| _ => false

/-- Is the event an executor settlement for the given job? -/
def isResolveOf (j : String) : BEvent → Bool
| .resolve j' _ _ => j' == j
| _ => false

/-- Is the event a job_cancel for the given job? -/
def isCancelOf (j : String) : BEvent → Bool
| .cancel j' => j' == j
| _ => false

/- ### Association-list lemmas -/

theorem lookupA_filterNe {α : Type} (l : List (String × α)) (k k' : String) (h : k ≠ k') :
    lookupA (l.filter (fun p => p.1 != k)) k' = lookupA l k' := by
  induction l with
  | nil => rfl
  | cons p rest ih =>
    obtain ⟨pk, pv⟩ := p
    by_cases hpk : pk = k
    · subst hpk
      have hne : pk ≠ k' := h
      simp [lookupA, List.filter_cons, hne, ih]
    · by_cases hpk' : pk = k'
      · subst hpk'
        simp [lookupA, List.filter_cons, bne_iff_ne, hpk]
      · simp [lookupA, List.filter_cons, bne_iff_ne, hpk, hpk', ih]

theorem eraseA_cons_self {α : Type} (rest : List (String × α)) (k : String) (v : α) :
    eraseA ((k, v) :: rest) k = eraseA rest k := by
  simp [eraseA, List.filter_cons]

theorem eraseA_cons_ne {α : Type} (rest : List (String × α)) (pk k : String) (v : α)
    (h : pk ≠ k) : eraseA ((pk, v) :: rest) k = (pk, v) :: eraseA rest k := by
  simp [eraseA, List.filter_cons, bne_iff_ne, h]

theorem lookupA_eraseA_self {α : Type} (l : List (String × α)) (k : String) :
    lookupA (eraseA l k) k = none := by
  induction l with
  | nil => rfl
  | cons p rest ih =>
    obtain ⟨pk, pv⟩ := p
    by_cases hpk : pk = k
    · subst hpk; rw [eraseA_cons_self]; exact ih
    · rw [eraseA_cons_ne rest pk k pv hpk]
      simp only [lookupA, if_neg hpk]
      exact ih

theorem lookupA_eraseA_ne {α : Type} (l : List (String × α)) (k k' : String) (h : k ≠ k') :
    lookupA (eraseA l k) k' = lookupA l k' :=
  lookupA_filterNe l k k' h

theorem eraseA_of_lookupA_eq_none {α : Type} (l : List (String × α)) (k : String)
    (h : lookupA l k = none) : eraseA l k = l := by
  induction l with
  | nil => rfl
  | cons p rest ih =>
    obtain ⟨pk, pv⟩ := p
    by_cases hpk : pk = k
    · subst hpk; simp [lookupA] at h
    · simp only [lookupA, if_neg hpk] at h
      rw [eraseA_cons_ne rest pk k pv hpk, ih h]

theorem lookupA_setA_self {α : Type} (l : List (String × α)) (k : String) (v : α) :
    lookupA (setA l k v) k = some v := by
  simp [setA, lookupA]

theorem lookupA_setA_ne {α : Type} (l : List (String × α)) (k k' : String) (v : α) (h : k ≠ k') :
    lookupA (setA l k v) k' = lookupA l k' := by
  simp only [setA, lookupA, if_neg h]
  exact lookupA_filterNe l k k' h

theorem lookupA_updateA_self {α : Type} (l : List (String × α)) (k : String) (f : α → α) :
    lookupA (updateA l k f) k = (lookupA l k).map f := by
  induction l with
  | nil => rfl
  | cons p rest ih =>
    obtain ⟨pk, pv⟩ := p
    by_cases hpk : pk = k
    · subst hpk
      simp [updateA, List.map_cons, lookupA]
    · simp only [updateA, List.map_cons, lookupA, if_neg hpk] at ih ⊢
      exact ih

theorem lookupA_updateA_ne {α : Type} (l : List (String × α)) (k k' : String) (f : α → α)
    (h : k ≠ k') : lookupA (updateA l k f) k' = lookupA l k' := by
  induction l with
  | nil => rfl
  | cons p rest ih =>
    obtain ⟨pk, pv⟩ := p
    by_cases hpk' : pk = k'
    · subst hpk'
      have hpk : pk ≠ k := fun hc => h hc.symm
      simp [updateA, List.map_cons, lookupA, if_neg hpk]
    · simp only [updateA, List.map_cons, lookupA, if_neg hpk'] at ih ⊢
      exact ih

theorem lookupA_cons_isSome {α : Type} (l : List (String × α)) (k k' : String) (v : α)
    (h : (lookupA l k').isSome = true) : (lookupA ((k, v) :: l) k').isSome = true := by
  by_cases hk : k = k' <;> simp [lookupA, hk, h]

/- ### WSClient lemmas -/

/-- Is the effect the scheduling of a reconnect wait? -/
def isScheduledOut : WOut → Bool
| .scheduled _ => true
| _ => false

theorem handleMessage_no_sched (p : Except Unit JVal) :
    (handleMessage p).countP isScheduledOut = 0 := by
  match p with
  | .error _ => rfl
  | .ok .null => rfl
  | .ok (.bool b) => rfl
  | .ok (.num n) => rfl
  | .ok (.str s) => rfl
  | .ok (.arr xs) => rfl
  | .ok (.obj fields) =>
    simp only [handleMessage]
    cases (JVal.obj fields).getField "type" with
    | none => rfl
    | some t =>
      cases ht : t.truthy with
      | true => simp [ht, List.countP, List.countP.go, isScheduledOut]
      | false => simp [ht]

theorem wstep_no_reconnect (s : WState) (e : WEvent) (h : s.shouldReconnect = false) :
    (wstep s e).1.shouldReconnect = false ∧ (wstep s e).2.countP isScheduledOut = 0 := by
  cases e with
  | sockOpen => exact ⟨h, rfl⟩
  | sockMessage p => exact ⟨h, handleMessage_no_sched p⟩
  | sockClose => simp [wstep, h]
  | sockError =>
    refine ⟨h, ?_⟩
    by_cases hc : s.connected = true <;> simp [wstep, hc, List.countP, List.countP.go, isScheduledOut]
  | closeCall => exact ⟨rfl, rfl⟩
  | reconnectTimer b => cases b <;> exact ⟨h, rfl⟩

theorem wrun_no_reconnect (s : WState) (evs : List WEvent) (h : s.shouldReconnect = false) :
    (wrun s evs).1.shouldReconnect = false ∧ (wrun s evs).2.countP isScheduledOut = 0 := by
  induction evs generalizing s with
  | nil => exact ⟨h, rfl⟩
  | cons e rest ih =>
    obtain ⟨h1, h2⟩ := wstep_no_reconnect s e h
    obtain ⟨h3, h4⟩ := ih (wstep s e).1 h1
    refine ⟨h3, ?_⟩
    simp [wrun, List.countP_append, h2, h4]

/- ### Backoff-delay lemmas -/

theorem reconnectDelay_ge4 (n : Nat) (h : 4 ≤ n) : reconnectDelay n = 30000 := by
  have hlen : RECONNECT_DELAYS.length - 1 = 4 := rfl
  unfold reconnectDelay
  rw [hlen, min_eq_right h]
  rfl

theorem reconnectDelay_le_cap (n : Nat) : reconnectDelay n ≤ 30000 := by
  match n with
  | 0 => decide
  | 1 => decide
  | 2 => decide
  | 3 => decide
  | (m + 4) => rw [reconnectDelay_ge4 (m + 4) (by omega)]

theorem reconnectDelay_mono (m n : Nat) (h : m ≤ n) : reconnectDelay m ≤ reconnectDelay n := by
  by_cases h4 : 4 ≤ n
  · rw [reconnectDelay_ge4 n h4]; exact reconnectDelay_le_cap m
  · have hn : n < 4 := by omega
    have hm : m < 4 := by omega
    interval_cases m <;> interval_cases n <;> decide

/- ### Claim theorems: Transport Channel -/

/-- C4: the reconnect delay is schedule[min(attempt, len-1)] over the
schedule [1s, 2s, 5s, 10s, 30s]; the close handler schedules exactly
that delay and increments the attempt counter before the wait; the
delay is non-decreasing in the attempt number and capped at the final
30s value; a successful reconnect attempt emits a `reconnected` effect
distinct from the initial connect resolution; and the attempt counter
resets to 0 only on a successful open (initial open or successful
reconnect). -/
theorem c4_reconnect_backoff :
    (∀ n, reconnectDelay n = RECONNECT_DELAYS.getD (min n (RECONNECT_DELAYS.length - 1)) 0) ∧
    (∀ s : WState, s.shouldReconnect = true →
      wstep s .sockClose =
        ({ connected := false, reconnectAttempt := s.reconnectAttempt + 1,
           shouldReconnect := true },
         [.scheduled (reconnectDelay s.reconnectAttempt)])) ∧
    (∀ m n, m ≤ n → reconnectDelay m ≤ reconnectDelay n) ∧
    (∀ n, reconnectDelay n ≤ 30000) ∧
    (∀ n, 4 ≤ n → reconnectDelay n = 30000) ∧
    (∀ s : WState, wstep s (.reconnectTimer true) =
      ({ s with connected := true, reconnectAttempt := 0 }, [.reconnectedEmitted])) ∧
    WOut.reconnectedEmitted ≠ WOut.connectResolved ∧
    (∀ (s : WState) (e : WEvent), (wstep s e).1.reconnectAttempt = 0 →
      s.reconnectAttempt = 0 ∨ e = .sockOpen ∨ e = .reconnectTimer true) := by
  refine ⟨fun n => rfl, ?_, reconnectDelay_mono, reconnectDelay_le_cap, reconnectDelay_ge4,
    fun s => rfl, ?_, ?_⟩
  · intro s h
    simp [wstep, h]
  · intro hc
    exact WOut.noConfusion hc
  · intro s e h
    cases e with
    | sockOpen => exact Or.inr (Or.inl rfl)
    | sockMessage p => exact Or.inl h
    | sockClose =>
      by_cases hr : s.shouldReconnect = true
      · simp [wstep, hr] at h
      · simp [wstep, hr] at h
        exact Or.inl h
    | sockError => exact Or.inl h
    | closeCall => exact Or.inl h
    | reconnectTimer b =>
      cases b with
      | true => exact Or.inr (Or.inr rfl)
      | false => exact Or.inl h

/-- C4 witness: the theorem instantiated at concrete attempt numbers and
at the freshly constructed client state. -/
theorem c4_reconnect_backoff_witness :
    reconnectDelay 1 ≤ reconnectDelay 3 ∧ reconnectDelay 9 = 30000 ∧
    wstep WState.init .sockClose =
      ({ connected := false, reconnectAttempt := 1, shouldReconnect := true },
       [.scheduled 1000]) := by
  refine ⟨c4_reconnect_backoff.2.2.1 1 3 (by decide),
    c4_reconnect_backoff.2.2.2.2.1 9 (by decide), ?_⟩
  exact c4_reconnect_backoff.2.1 WState.init rfl

/-- C6: `close()` clears shouldReconnect and closes the socket with the
normal-closure code 1000, and from then on no reconnect wait is ever
scheduled, whatever close/error/message events the socket subsequently
delivers. -/
theorem c6_no_reconnect_after_close (s : WState) (evs : List WEvent) :
    (wstep s .closeCall).2 = [.closedSocket 1000] ∧
    (wstep s .closeCall).1.shouldReconnect = false ∧
    (wrun (wstep s .closeCall).1 evs).2.countP isScheduledOut = 0 ∧
    (wrun (wstep s .closeCall).1 evs).1.shouldReconnect = false := by
  obtain ⟨h1, h2⟩ := wrun_no_reconnect (wstep s .closeCall).1 evs rfl
  exact ⟨rfl, rfl, h2, h1⟩

/-- C7 counterexample: the frame `{"type":"","data":5}` parses
successfully and its object has a `type` field, yet the message handler
emits nothing, because `msg.type` is the empty string and therefore
falsy — so "if the parsed object has a type field, a typed event is
emitted" fails as literally stated. -/
theorem c7_counterexample :
    (JVal.obj [("type", JVal.str ""), ("data", JVal.num 5)]).getField "type" =
      some (JVal.str "") ∧
    handleMessage (.ok (JVal.obj [("type", JVal.str ""), ("data", JVal.num 5)])) = [] :=
  ⟨rfl, rfl⟩

/-- C7 (amended): a parse failure is logged and the frame dropped, with
the handler returning normally; on success a typed event is emitted
exactly when the `type` field is truthy (a present-but-falsy type such
as the empty string is silently dropped — the one place the original
claim fails); the event carries the `data` field when truthy and the
empty object when `data` is absent or falsy; and an event name with no
registered handler is delivered to nobody. -/
theorem c7_inbound_frame_handling (subs : List (String × Nat)) :
    (∀ e, handleMessage (.error e) = [.parseErrorLogged]) ∧
    (∀ fields t d, lookupA fields "type" = some t → t.truthy = true →
      lookupA fields "data" = some d → d.truthy = true →
      handleMessage (.ok (.obj fields)) = [.emitted t d]) ∧
    (∀ fields t, lookupA fields "type" = some t → t.truthy = true →
      lookupA fields "data" = none →
      handleMessage (.ok (.obj fields)) = [.emitted t (.obj [])]) ∧
    (∀ fields t d, lookupA fields "type" = some t → t.truthy = true →
      lookupA fields "data" = some d → d.truthy = false →
      handleMessage (.ok (.obj fields)) = [.emitted t (.obj [])]) ∧
    (∀ fields t, lookupA fields "type" = some t → t.truthy = false →
      handleMessage (.ok (.obj fields)) = []) ∧
    (∀ fields, lookupA fields "type" = none → handleMessage (.ok (.obj fields)) = []) ∧
    (∀ nm d, subs.filter (fun p => p.1 == nm) = [] → emitDeliver subs (.str nm) d = []) := by
  refine ⟨fun e => rfl, ?_, ?_, ?_, ?_, ?_, ?_⟩
  · intro fields t d h1 h2 h3 h4
    simp [handleMessage, JVal.getField, h1, h2, h3, h4]
  · intro fields t h1 h2 h3
    simp [handleMessage, JVal.getField, h1, h2, h3]
  · intro fields t d h1 h2 h3 h4
    simp [handleMessage, JVal.getField, h1, h2, h3, h4]
  · intro fields t h1 h2
    simp [handleMessage, JVal.getField, h1, h2]
  · intro fields h1
    simp [handleMessage, JVal.getField, h1]
  · intro nm d h
    simp [emitDeliver, h]

/-- C7 witness: a well-formed typed frame is emitted, a parse failure is
logged and dropped, and an event with no subscriber reaches nobody. -/
theorem c7_inbound_frame_handling_witness :
    handleMessage (.ok (.obj [("type", JVal.str "job_cancel"),
                              ("data", JVal.obj [("job_id", JVal.str "j9")])])) =
      [.emitted (JVal.str "job_cancel") (JVal.obj [("job_id", JVal.str "j9")])] ∧
    handleMessage (.error ()) = [.parseErrorLogged] ∧
    emitDeliver [("job_dispatch", 0)] (.str "unknown_kind") (JVal.obj []) = [] := by
  refine ⟨(c7_inbound_frame_handling []).2.1 _ _ _ rfl rfl rfl rfl,
    (c7_inbound_frame_handling []).1 (),
    (c7_inbound_frame_handling [("job_dispatch", 0)]).2.2.2.2.2.2 "unknown_kind" (JVal.obj [])
      rfl⟩

/-- C8: `send(type, data)` serializes the `{type, data}` frame and
writes it exactly when the socket exists and its readyState is OPEN;
in every other state the write is silently dropped — send is a total
function, so nothing is thrown. -/
theorem c8_send_only_when_open :
    (∀ ty d, wsSend (some .opened) ty d = [.obj [("type", .str ty), ("data", d)]]) ∧
    (∀ ws ty d, ws ≠ some ReadyState.opened → wsSend ws ty d = []) := by
  refine ⟨fun ty d => rfl, ?_⟩
  intro ws ty d h
  match ws with
  | none => rfl
  | some .connecting => rfl
  | some .opened => exact absurd rfl h
  | some .closing => rfl
  | some .closed => rfl

/-- C8 witness: a heartbeat frame is written on an open socket and
dropped on a closed or absent one. -/
theorem c8_send_only_when_open_witness :
    wsSend (some .opened) "heartbeat" (JVal.obj []) =
      [.obj [("type", .str "heartbeat"), ("data", JVal.obj [])]] ∧
    wsSend (some .closed) "heartbeat" (JVal.obj []) = [] ∧
    wsSend none "heartbeat" (JVal.obj []) = [] :=
  ⟨c8_send_only_when_open.1 "heartbeat" (JVal.obj []),
   c8_send_only_when_open.2 (some .closed) "heartbeat" (JVal.obj []) (by decide),
   c8_send_only_when_open.2 none "heartbeat" (JVal.obj []) (by decide)⟩

/- ### Config lemmas -/

theorem envTruthy_ne_empty (env : Env) (k v : String) (h : envTruthy env k = some v) :
    v ≠ "" := by
  unfold envTruthy at h
  cases hl : lookupA env k with
  | none => simp [hl] at h
  | some w =>
    simp only [hl] at h
    by_cases hw : w = ""
    · rw [if_pos hw] at h; simp at h
    · rw [if_neg hw] at h
      obtain rfl : w = v := Option.some.inj h
      exact hw

theorem getConfig_ne_empty (db : CfgDB) (k v : String) (h : getConfig db k = some v) :
    v ≠ "" := by
  unfold getConfig at h
  cases hl : lookupA db k with
  | none => simp [hl] at h
  | some w =>
    simp only [hl] at h
    by_cases hw : w = ""
    · rw [if_pos hw] at h; simp at h
    · rw [if_neg hw] at h
      obtain rfl : w = v := Option.some.inj h
      exact hw

theorem configGet_ne_empty (env : Env) (db : CfgDB) (k v : String)
    (h : configGet env db k = some v) : v ≠ "" := by
  unfold configGet at h
  cases h1 : envTruthy env k with
  | some w =>
    simp only [h1] at h
    exact (Option.some.inj h) ▸ envTruthy_ne_empty env k w h1
  | none =>
    simp only [h1] at h
    cases h2 : envTruthy env (envKeyOf k) with
    | some w =>
      simp only [h2] at h
      exact (Option.some.inj h) ▸ envTruthy_ne_empty env (envKeyOf k) w h2
    | none =>
      simp only [h2] at h
      cases h3 : (boltaEnvMap k).bind (envTruthy env) with
      | some w =>
        simp only [h3] at h
        obtain ⟨a, _, hw⟩ := Option.bind_eq_some.mp h3
        exact (Option.some.inj h) ▸ envTruthy_ne_empty env a w hw
      | none =>
        simp only [h3] at h
        exact getConfig_ne_empty db k v h

theorem jsOr_eq_none_iff (a b : Option String) (ha : ∀ v, a = some v → v ≠ "") :
    jsOr a b = none ↔ a = none ∧ b = none := by
  unfold jsOr
  cases a with
  | none => simp
  | some v =>
    have hv := ha v rfl
    simp [hv]

theorem currentTokenOf_ne_empty (env : Env) (db : CfgDB) (t : String)
    (h : currentTokenOf env db = some t) : t ≠ "" := by
  unfold currentTokenOf jsOr at h
  cases ha : configGet env db "runner_key" with
  | none =>
    simp only [ha] at h
    exact configGet_ne_empty env db "install_token" t h
  | some v =>
    simp only [ha] at h
    by_cases hv : v = ""
    · rw [if_pos hv] at h
      exact configGet_ne_empty env db "install_token" t h
    · rw [if_neg hv] at h
      exact (Option.some.inj h) ▸ hv

theorem configGet_some_of_db (env : Env) (db : CfgDB) (k v : String)
    (hdb : getConfig db k = some v) :
    ∃ t, t ≠ "" ∧ configGet env db k = some t := by
  unfold configGet
  cases h1 : envTruthy env k with
  | some w => exact ⟨w, envTruthy_ne_empty env k w h1, by simp only [h1]⟩
  | none =>
    cases h2 : envTruthy env (envKeyOf k) with
    | some w => exact ⟨w, envTruthy_ne_empty env (envKeyOf k) w h2, by simp only [h1, h2]⟩
    | none =>
      cases h3 : (boltaEnvMap k).bind (envTruthy env) with
      | some w =>
        obtain ⟨a, _, hw⟩ := Option.bind_eq_some.mp h3
        exact ⟨w, envTruthy_ne_empty env a w hw, by simp only [h1, h2, h3]⟩
      | none =>
        exact ⟨v, getConfig_ne_empty db k v hdb, by simp only [h1, h2, h3]; exact hdb⟩

theorem lookupA_condSet_ne {c : Prop} [Decidable c] (l : CfgDB) (key' v' k : String)
    (h : key' ≠ k) : lookupA (if c then setA l key' v' else l) k = lookupA l k := by
  by_cases hc : c
  · rw [if_pos hc]; exact lookupA_setA_ne l key' k v' h
  · rw [if_neg hc]

theorem onHandshake_lookup_ne (db : CfgDB) (data : HandshakeData) (k : String)
    (h1 : k ≠ "workspace_id") (h2 : k ≠ "BOLTA_API_KEY") :
    lookupA (onHandshake db data) k =
      lookupA (if optTruthy data.runner_key then
          deleteConfig (setConfig db "runner_key" (data.runner_key.getD "")) "install_token"
        else db) k := by
  simp only [onHandshake, setConfig]
  rw [lookupA_condSet_ne _ _ _ _ (fun hc => h2 hc.symm),
      lookupA_condSet_ne _ _ _ _ (fun hc => h1 hc.symm)]

/- ### Claim theorems: Session Authenticator / Config -/

/-- C9 counterexample: with the environment variable `voice_profile` set
to the empty string and a stored value present, Config.get returns the
stored value, not the environment value — so "an environment variable
always overrides a stored value of the same key, for every key" fails
for set-but-empty variables. -/
theorem c9_counterexample :
    lookupA ([("voice_profile", "")] : Env) "voice_profile" = some "" ∧
    configGet [("voice_profile", "")] [("voice_profile", "stored-voice")] "voice_profile" =
      some "stored-voice" :=
  ⟨rfl, rfl⟩

/-- C9 (amended): Config.get(key) returns the identically-named
environment variable when it is set to a non-empty value (likewise
consulting the uppercased/underscored form of the key and, for
install_token, the BOLTA_TOKEN alias); a variable that is unset — or
set to the empty string, the case the original claim misses — is
passed over, and only when all environment probes fail does the lookup
fall back to the SQLite-stored value.  Hence a non-empty
identically-named environment variable overrides the stored value for
every key. -/
theorem c9_env_override (env : Env) (db : CfgDB) (key v : String) :
    (lookupA env key = some v → v ≠ "" → configGet env db key = some v) ∧
    (∀ db' : CfgDB, lookupA env key = some v → v ≠ "" →
      configGet env db key = configGet env db' key) ∧
    (envTruthy env key = none → envTruthy env (envKeyOf key) = none →
      (boltaEnvMap key).bind (envTruthy env) = none →
      configGet env db key = getConfig db key) ∧
    (envTruthy env "install_token" = none → envTruthy env "INSTALL_TOKEN" = none →
      lookupA env "BOLTA_TOKEN" = some v → v ≠ "" →
      configGet env db "install_token" = some v) := by
  have hdirect : ∀ db0 : CfgDB, lookupA env key = some v → v ≠ "" →
      configGet env db0 key = some v := by
    intro db0 h hne
    have he : envTruthy env key = some v := by
      unfold envTruthy; simp only [h]; rw [if_neg hne]
    unfold configGet
    simp only [he]
  refine ⟨hdirect db, ?_, ?_, ?_⟩
  · intro db' h hne
    rw [hdirect db h hne, hdirect db' h hne]
  · intro h1 h2 h3
    unfold configGet
    simp only [h1, h2, h3]
  · intro h1 h2 h3 hne
    have he : envTruthy env "BOLTA_TOKEN" = some v := by
      unfold envTruthy; simp only [h3]; rw [if_neg hne]
    have hkey : envKeyOf "install_token" = "INSTALL_TOKEN" := rfl
    have halias : (boltaEnvMap "install_token").bind (envTruthy env) = some v := by
      have hb : boltaEnvMap "install_token" = some "BOLTA_TOKEN" := rfl
      rw [hb, Option.some_bind, he]
    unfold configGet
    rw [← hkey] at h2
    simp only [h1, h2, halias]

/-- C9 witness: a non-empty env var overrides the stored value, and the
BOLTA_TOKEN alias serves install_token lookups. -/
theorem c9_env_override_witness :
    configGet [("ANTHROPIC_API_KEY", "sk-ant-1")] [("ANTHROPIC_API_KEY", "db-key")]
      "ANTHROPIC_API_KEY" = some "sk-ant-1" ∧
    configGet [("BOLTA_TOKEN", "tok-7")] [] "install_token" = some "tok-7" :=
  ⟨(c9_env_override [("ANTHROPIC_API_KEY", "sk-ant-1")] [("ANTHROPIC_API_KEY", "db-key")]
      "ANTHROPIC_API_KEY" "sk-ant-1").1 rfl (by decide),
   (c9_env_override [("BOLTA_TOKEN", "tok-7")] [] "install_token" "tok-7").2.2.2
      (by decide) (by decide) rfl (by decide)⟩

/-- C10: on a `reconnected` event the Bridge sends auth exactly when a
credential is available in config at that moment: with a credential it
sends one auth message carrying it; with none it sends nothing and
returns normally — no exception and no close — while the fail-fast
refusal for a missing credential exists only in the initial connect()
path. -/
theorem c10_reconnected_auth (env : Env) (db : CfgDB) :
    (∀ t, currentTokenOf env db = some t →
      onReconnected env db = [.auth t] ∧ bridgeConnect env db = .ok [.auth t]) ∧
    (currentTokenOf env db = none →
      onReconnected env db = [] ∧
      bridgeConnect env db = .error "No authentication token available") ∧
    (currentTokenOf env db = none ↔
      configGet env db "runner_key" = none ∧ configGet env db "install_token" = none) := by
  refine ⟨?_, ?_, ?_⟩
  · intro t ht
    have hne := currentTokenOf_ne_empty env db t ht
    constructor
    · unfold onReconnected
      simp only [ht]
      rw [if_neg hne]
    · unfold bridgeConnect
      simp only [ht]
      rw [if_neg hne]
  · intro ht
    constructor
    · unfold onReconnected; simp only [ht]
    · unfold bridgeConnect; simp only [ht]
  · unfold currentTokenOf
    exact jsOr_eq_none_iff _ _ (fun v hv => configGet_ne_empty env db "runner_key" v hv)

/-- C10 witness: with a stored runner key the reconnected handler sends
auth with it; with no credential at all it sends nothing while the
initial connect path fails fast. -/
theorem c10_reconnected_auth_witness :
    onReconnected [] [("runner_key", "rk-1")] = [.auth "rk-1"] ∧
    onReconnected [] [] = [] ∧
    bridgeConnect [] [] = .error "No authentication token available" :=
  ⟨((c10_reconnected_auth [] [("runner_key", "rk-1")]).1 "rk-1" rfl).1,
   ((c10_reconnected_auth [] []).2.1 rfl).1,
   ((c10_reconnected_auth [] []).2.1 rfl).2⟩

/-- C5: a handshake_complete carrying a (truthy) runner_key leaves the
config store with the runner key bound and the install token absent —
at most one credential retained — where deleting an already-absent
install token is a no-op on the store, not an error; and afterwards,
whatever the process environment, the credential chosen for subsequent
auth messages is the runner_key configuration value, which is present
and non-empty — never the install token. -/
theorem c5_handshake_token_burn (db : CfgDB) (data : HandshakeData) (rk : String)
    (hrk : data.runner_key = some rk) (hne : rk ≠ "") :
    getConfig (onHandshake db data) "runner_key" = some rk ∧
    lookupA (onHandshake db data) "install_token" = none ∧
    (∀ db0 : CfgDB, lookupA db0 "install_token" = none →
      deleteConfig db0 "install_token" = db0) ∧
    (∀ env : Env, ∃ t, t ≠ "" ∧
      configGet env (onHandshake db data) "runner_key" = some t ∧
      currentTokenOf env (onHandshake db data) = some t ∧
      onReconnected env (onHandshake db data) = [.auth t]) := by
  have hcred : ∀ k, k ≠ "workspace_id" → k ≠ "BOLTA_API_KEY" →
      lookupA (onHandshake db data) k =
        lookupA (deleteConfig (setConfig db "runner_key" rk) "install_token") k := by
    intro k h1 h2
    rw [onHandshake_lookup_ne db data k h1 h2, hrk]
    have htr : optTruthy (some rk) = true := by
      simp [optTruthy, bne_iff_ne, hne]
    rw [if_pos htr]
    rfl
  have hrow : lookupA (onHandshake db data) "runner_key" = some rk := by
    rw [hcred "runner_key" (by decide) (by decide)]
    unfold deleteConfig setConfig
    rw [lookupA_eraseA_ne _ _ _ (by decide), lookupA_setA_self]
  have hstore : getConfig (onHandshake db data) "runner_key" = some rk := by
    unfold getConfig
    simp only [hrow]
    rw [if_neg hne]
  have hburn : lookupA (onHandshake db data) "install_token" = none := by
    rw [hcred "install_token" (by decide) (by decide)]
    unfold deleteConfig
    exact lookupA_eraseA_self _ _
  refine ⟨hstore, hburn, ?_, ?_⟩
  · intro db0 h0
    unfold deleteConfig
    exact eraseA_of_lookupA_eq_none db0 "install_token" h0
  · intro env
    obtain ⟨t, hte, hg⟩ := configGet_some_of_db env (onHandshake db data) "runner_key" rk hstore
    have hcur : currentTokenOf env (onHandshake db data) = some t := by
      unfold currentTokenOf jsOr
      simp only [hg]
      rw [if_neg hte]
    refine ⟨t, hte, hg, hcur, ?_⟩
    unfold onReconnected
    simp only [hcur]
    rw [if_neg hte]

/-- C5 witness: a concrete handshake burning the install token. -/
theorem c5_handshake_token_burn_witness :
    getConfig (onHandshake [("install_token", "tok-1")]
        ⟨some "rk-9", some "ws-1", none⟩) "runner_key" = some "rk-9" ∧
    lookupA (onHandshake [("install_token", "tok-1")]
        ⟨some "rk-9", some "ws-1", none⟩) "install_token" = none ∧
    deleteConfig ([] : CfgDB) "install_token" = [] := by
  have h := c5_handshake_token_burn [("install_token", "tok-1")]
    ⟨some "rk-9", some "ws-1", none⟩ "rk-9" rfl (by decide)
  exact ⟨h.1, h.2.1, h.2.2.1 [] rfl⟩

/- ### Bridge job-coordination lemmas -/

theorem lookupA_updateA_isSome {α : Type} (l : List (String × α)) (k j : String) (f : α → α) :
    (lookupA (updateA l k f) j).isSome = (lookupA l j).isSome := by
  by_cases hjk : k = j
  · subst hjk
    rw [lookupA_updateA_self]
    cases lookupA l k <;> rfl
  · rw [lookupA_updateA_ne _ _ _ _ hjk]

theorem createJob_ok (store : List (String × JobRow)) (id : String) (wsid : Option String)
    (a inp : String) (store1 : List (String × JobRow))
    (h : createJob store id wsid a inp = .ok store1) :
    ∃ w, wsid = some w ∧ lookupA store id = none ∧
      store1 = (id, ⟨w, a, "running", inp, none, none⟩) :: store := by
  unfold createJob at h
  cases wsid with
  | none => simp at h
  | some w =>
    cases hl : lookupA store id with
    | some r => simp [hl] at h
    | none =>
      simp only [hl] at h
      obtain rfl : _ = store1 := Except.ok.inj h
      exact ⟨w, rfl, rfl, rfl⟩

theorem createJob_error_of_isSome (store : List (String × JobRow)) (id : String)
    (wsid : Option String) (a inp : String) (h : (lookupA store id).isSome = true) :
    createJob store id wsid a inp = .error () := by
  unfold createJob
  cases wsid with
  | none => rfl
  | some w =>
    cases hl : lookupA store id with
    | none => rw [hl] at h; simp at h
    | some r => simp [hl]

/-- The in-memory active set only ever holds jobs that have a row in the
jobs table (dispatch inserts into both; updates never remove rows). -/
def ActiveSubStore (s : BState) : Prop :=
  ∀ j, (lookupA s.active j).isSome = true → (lookupA s.store j).isSome = true

theorem bstep_activeSubStore (wsid : Option String) (s : BState) (e : BEvent)
    (h : ActiveSubStore s) : ActiveSubStore (bstep wsid s e).1 := by
  cases e with
  | dispatch j' a inp conn =>
    cases hc : createJob s.store j' wsid a inp with
    | error u =>
      intro j hj
      simp only [bstep, hc] at hj ⊢
      exact h j hj
    | ok store1 =>
      obtain ⟨w, hw, hl, rfl⟩ := createJob_ok _ _ _ _ _ _ hc
      intro j hj
      simp only [bstep, hc] at hj ⊢
      by_cases hjj : j' = j
      · subst hjj
        simp [lookupA]
      · rw [lookupA_setA_ne _ _ _ _ hjj] at hj
        exact lookupA_cons_isSome _ _ _ _ (h j hj)
  | cancel j' =>
    cases ha : lookupA s.active j' with
    | none =>
      intro j hj
      simp only [bstep, ha] at hj ⊢
      exact h j hj
    | some job =>
      intro j hj
      simp only [bstep, ha] at hj ⊢
      by_cases hjj : j' = j
      · subst hjj
        rw [lookupA_eraseA_self] at hj
        simp at hj
      · rw [lookupA_eraseA_ne _ _ _ hjj] at hj
        unfold updateJob
        rw [lookupA_updateA_isSome]
        exact h j hj
  | resolve j' r conn =>
    by_cases hp : j' ∈ s.pending
    · intro j hj
      cases r with
      | ok out =>
        simp only [bstep, if_pos hp] at hj ⊢
        by_cases hjj : j' = j
        · subst hjj; rw [lookupA_eraseA_self] at hj; simp at hj
        · rw [lookupA_eraseA_ne _ _ _ hjj] at hj
          unfold updateJob
          rw [lookupA_updateA_isSome]
          exact h j hj
      | err m =>
        simp only [bstep, if_pos hp] at hj ⊢
        by_cases hjj : j' = j
        · subst hjj; rw [lookupA_eraseA_self] at hj; simp at hj
        · rw [lookupA_eraseA_ne _ _ _ hjj] at hj
          unfold updateJob
          rw [lookupA_updateA_isSome]
          exact h j hj
    · intro j hj
      cases r with
      | ok out =>
        simp only [bstep, if_neg hp] at hj ⊢
        exact h j hj
      | err m =>
        simp only [bstep, if_neg hp] at hj ⊢
        exact h j hj

theorem brun_activeSubStore (wsid : Option String) (t : List BEvent) (s : BState)
    (h : ActiveSubStore s) : ActiveSubStore (brun wsid s t).1 := by
  induction t generalizing s with
  | nil => exact h
  | cons e rest ih => exact ih (bstep wsid s e).1 (bstep_activeSubStore wsid s e h)

/- ### Claim theorems: Job Coordinator (C1, C2) -/

/-- C1 counterexample: a second dispatch of job j1 while j1 is still in
the active set.  `createJob` IS called a second time (its count over the
trace is 2), refuting "createJob in the persistent job store is not
called again"; the duplicate is not silently ignored either — the
constraint error escapes the handler.  (No second execution starts and
the state, including the store, is unchanged by the duplicate.) -/
theorem c1_counterexample :
    (brun (some "w1") BState.init
        [.dispatch "j1" "hunter" "find leads" true,
         .dispatch "j1" "hunter" "find leads" true]).2.countP (isCreateCallFor "j1") = 2 ∧
    (lookupA (brun (some "w1") BState.init
        [.dispatch "j1" "hunter" "find leads" true]).1.active "j1").isSome = true ∧
    (brun (some "w1") BState.init
        [.dispatch "j1" "hunter" "find leads" true,
         .dispatch "j1" "hunter" "find leads" true]).2.countP (isExecStartFor "j1") = 1 ∧
    (brun (some "w1") BState.init
        [.dispatch "j1" "hunter" "find leads" true,
         .dispatch "j1" "hunter" "find leads" true]).1 =
      (brun (some "w1") BState.init [.dispatch "j1" "hunter" "find leads" true]).1 := by
  decide

/-- C1 (amended): there is no duplicate check against the active set.
On a dispatch whose job_id is already active, `createJob` is called
again and fails on the jobs-table primary-key constraint; the error
escapes the handler as an unhandled rejection (not a silent ignore).
As a consequence no second execution is started, nothing is sent, and
the state — store included — is unchanged. -/
theorem c1_duplicate_dispatch (wsid : Option String) (t : List BEvent)
    (j a inp : String) (conn : Bool)
    (hActive : (lookupA (brun wsid BState.init t).1.active j).isSome = true) :
    bstep wsid (brun wsid BState.init t).1 (.dispatch j a inp conn) =
      ((brun wsid BState.init t).1, [.createJobCalled j, .uncaughtError j]) := by
  have hinit : ActiveSubStore BState.init := by
    intro j' hj'
    simp [BState.init, lookupA] at hj'
  have hstore : (lookupA (brun wsid BState.init t).1.store j).isSome = true :=
    brun_activeSubStore wsid t BState.init hinit j hActive
  have hc := createJob_error_of_isSome (brun wsid BState.init t).1.store j wsid a inp hstore
  simp [bstep, hc]

/-- C1 witness: the amended behaviour at the concrete duplicate
dispatch of the counterexample. -/
theorem c1_duplicate_dispatch_witness :
    bstep (some "w1")
        (brun (some "w1") BState.init [.dispatch "j1" "hunter" "find leads" true]).1
        (.dispatch "j1" "hunter" "find leads" true) =
      ((brun (some "w1") BState.init [.dispatch "j1" "hunter" "find leads" true]).1,
       [.createJobCalled "j1", .uncaughtError "j1"]) :=
  c1_duplicate_dispatch (some "w1") [.dispatch "j1" "hunter" "find leads" true]
    "j1" "hunter" "find leads" true (by decide)

/-- C2 counterexample: dispatch j3, cancel it (store reads cancelled),
then the executor resolves late with success — the store ends
`complete`, not `cancelled`: the first terminal transition does NOT
win. -/
theorem c2_counterexample :
    statusOf (brun (some "w1") BState.init
        [.dispatch "j3" "hunter" "find" true, .cancel "j3"]).1 "j3" = some "cancelled" ∧
    statusOf (brun (some "w1") BState.init
        [.dispatch "j3" "hunter" "find" true, .cancel "j3",
         .resolve "j3" (.ok "draft A") true]).1 "j3" = some "complete" ∧
    ¬ statusOf (brun (some "w1") BState.init
        [.dispatch "j3" "hunter" "find" true, .cancel "j3",
         .resolve "j3" (.ok "draft A") true]).1 "j3" = some "cancelled" := by
  decide

/-- C2 (amended): a late executor settlement for an already-cancelled
job OVERWRITES the stored terminal status: `updateJob` is an
unconditional UPDATE and the dispatch continuation consults neither the
cancelled flag nor the stored status, so the last writer wins — the row
ends `complete` (on success) or `failed` (on failure), not
`cancelled`. -/
theorem c2_late_resolution_overwrites (wsid : Option String) (s : BState)
    (j out m : String) (conn : Bool)
    (hp : j ∈ s.pending) (hc : statusOf s j = some "cancelled") :
    statusOf (bstep wsid s (.resolve j (.ok out) conn)).1 j = some "complete" ∧
    statusOf (bstep wsid s (.resolve j (.err m) conn)).1 j = some "failed" := by
  obtain ⟨row, hrow⟩ : ∃ r, lookupA s.store j = some r := by
    unfold statusOf at hc
    cases hl : lookupA s.store j with
    | none => rw [hl] at hc; simp at hc
    | some r => exact ⟨r, rfl⟩
  constructor
  · simp only [bstep, if_pos hp]
    unfold statusOf updateJob
    rw [lookupA_updateA_self, hrow]
    rfl
  · simp only [bstep, if_pos hp]
    unfold statusOf updateJob
    rw [lookupA_updateA_self, hrow]
    rfl

/-- C2 witness: the amended behaviour at the concrete cancelled state of
the counterexample, for both the success and the failure settlement. -/
theorem c2_late_resolution_overwrites_witness :
    statusOf (bstep (some "w1")
        (brun (some "w1") BState.init [.dispatch "j3" "hunter" "find" true, .cancel "j3"]).1
        (.resolve "j3" (.ok "draft A") true)).1 "j3" = some "complete" ∧
    statusOf (bstep (some "w1")
        (brun (some "w1") BState.init [.dispatch "j3" "hunter" "find" true, .cancel "j3"]).1
        (.resolve "j3" (.err "boom") true)).1 "j3" = some "failed" :=
  c2_late_resolution_overwrites (some "w1")
    (brun (some "w1") BState.init [.dispatch "j3" "hunter" "find" true, .cancel "j3"]).1
    "j3" "draft A" "boom" true (by decide) (by decide)

/- ### Trace-decomposition lemmas for the terminal-outcome claim -/

theorem brun_append (wsid : Option String) (s : BState) (t1 t2 : List BEvent) :
    brun wsid s (t1 ++ t2) =
      ((brun wsid (brun wsid s t1).1 t2).1,
       (brun wsid s t1).2 ++ (brun wsid (brun wsid s t1).1 t2).2) := by
  induction t1 generalizing s with
  | nil => simp [brun]
  | cons e rest ih =>
    show brun wsid s (e :: (rest ++ t2)) = _
    have hstep : brun wsid s (e :: (rest ++ t2)) =
        ((brun wsid (bstep wsid s e).1 (rest ++ t2)).1,
         (bstep wsid s e).2 ++ (brun wsid (bstep wsid s e).1 (rest ++ t2)).2) := rfl
    rw [hstep, ih (bstep wsid s e).1]
    simp [brun, List.append_assoc]

theorem exists_first_split {α : Type} (p : α → Bool) (l : List α) (h : l.any p = true) :
    ∃ u x v, l = u ++ x :: v ∧ p x = true ∧ u.all (fun y => !(p y)) = true := by
  induction l with
  | nil => simp at h
  | cons a rest ih =>
    by_cases ha : p a = true
    · exact ⟨[], a, rest, rfl, ha, rfl⟩
    · have hrest : rest.any p = true := by
        rw [List.any_cons] at h
        rcases Bool.or_eq_true_iff.mp h with h' | h'
        · exact absurd h' ha
        · exact h'
      obtain ⟨u, x, v, he, hx, hu⟩ := ih hrest
      refine ⟨a :: u, x, v, by rw [he, List.cons_append], hx, ?_⟩
      have hpa : p a = false := by
        cases hpa : p a
        · rfl
        · exact absurd hpa ha
      simp [List.all_cons, hpa, hu]

theorem bstep_store_isSome (wsid : Option String) (s : BState) (e : BEvent) (j : String)
    (h : (lookupA s.store j).isSome = true) :
    (lookupA (bstep wsid s e).1.store j).isSome = true := by
  cases e with
  | dispatch j' a inp conn =>
    cases hc : createJob s.store j' wsid a inp with
    | error u => simpa [bstep, hc] using h
    | ok store1 =>
      obtain ⟨w, hw, hl, rfl⟩ := createJob_ok _ _ _ _ _ _ hc
      simp only [bstep, hc]
      exact lookupA_cons_isSome _ _ _ _ h
  | cancel j' =>
    cases ha : lookupA s.active j' with
    | none => simpa [bstep, ha] using h
    | some job =>
      simp only [bstep, ha]
      unfold updateJob
      rw [lookupA_updateA_isSome]
      exact h
  | resolve j' r conn =>
    by_cases hp : j' ∈ s.pending
    · cases r with
      | ok out =>
        simp only [bstep, if_pos hp]
        unfold updateJob
        rw [lookupA_updateA_isSome]
        exact h
      | err m =>
        simp only [bstep, if_pos hp]
        unfold updateJob
        rw [lookupA_updateA_isSome]
        exact h
    · cases r with
      | ok out => simpa [bstep, if_neg hp] using h
      | err m => simpa [bstep, if_neg hp] using h

theorem brun_store_isSome (wsid : Option String) (t : List BEvent) (s : BState) (j : String)
    (h : (lookupA s.store j).isSome = true) :
    (lookupA (brun wsid s t).1.store j).isSome = true := by
  induction t generalizing s with
  | nil => exact h
  | cons e rest ih => exact ih (bstep wsid s e).1 (bstep_store_isSome wsid s e j h)

theorem lookupA_updateA_none {α : Type} (l : List (String × α)) (k j : String) (f : α → α)
    (h : lookupA l j = none) : lookupA (updateA l k f) j = none := by
  by_cases hkj : k = j
  · subst hkj; rw [lookupA_updateA_self, h]; rfl
  · rw [lookupA_updateA_ne _ _ _ _ hkj]; exact h

theorem isTermSendFor_of_complete (j : String) (o : BOut)
    (h : isCompleteSendFor j o = true) : isTermSendFor j o = true := by
  cases o with
  | createJobCalled x => simp [isCompleteSendFor] at h
  | execStarted x => simp [isCompleteSendFor] at h
  | uncaughtError x => simp [isCompleteSendFor] at h
  | sentMsg m wr =>
    cases m with
    | complete j' out => simpa [isCompleteSendFor, isTermSendFor] using h
    | failed j' e => simp [isCompleteSendFor] at h
    | auth tk => simp [isCompleteSendFor] at h
    | progress x y => simp [isCompleteSendFor] at h

theorem isTermSendFor_of_failed (j : String) (o : BOut)
    (h : isFailedSendFor j o = true) : isTermSendFor j o = true := by
  cases o with
  | createJobCalled x => simp [isFailedSendFor] at h
  | execStarted x => simp [isFailedSendFor] at h
  | uncaughtError x => simp [isFailedSendFor] at h
  | sentMsg m wr =>
    cases m with
    | complete j' out => simp [isFailedSendFor] at h
    | failed j' e => simpa [isFailedSendFor, isTermSendFor] using h
    | auth tk => simp [isFailedSendFor] at h
    | progress x y => simp [isFailedSendFor] at h

theorem term_count_zero_components (j : String) (l : List BOut)
    (h : l.countP (isTermSendFor j) = 0) :
    l.countP (isCompleteSendFor j) = 0 ∧ l.countP (isFailedSendFor j) = 0 := by
  rw [List.countP_eq_zero] at h
  constructor
  · rw [List.countP_eq_zero]
    intro o ho hc
    exact h o ho (isTermSendFor_of_complete j o hc)
  · rw [List.countP_eq_zero]
    intro o ho hc
    exact h o ho (isTermSendFor_of_failed j o hc)

theorem isTermSendFor_create (j j' : String) :
    isTermSendFor j (.createJobCalled j') = false := rfl

theorem isTermSendFor_exec (j j' : String) :
    isTermSendFor j (.execStarted j') = false := rfl

theorem isTermSendFor_uncaught (j j' : String) :
    isTermSendFor j (.uncaughtError j') = false := rfl

theorem isTermSendFor_progress (j j' a : String) (c : Bool) :
    isTermSendFor j (.sentMsg (.progress j' a) c) = false := rfl

/-- Before its dispatch, a job that is absent from the store at the end
of a trace was absent throughout: no terminal message for it is sent
and it never enters the pending set. -/
theorem c3_fresh (wsid : Option String) (j : String) (t : List BEvent) (s : BState)
    (hs : lookupA s.store j = none) (hp : j ∉ s.pending)
    (hfin : lookupA (brun wsid s t).1.store j = none) :
    (brun wsid s t).2.countP (isTermSendFor j) = 0 ∧ j ∉ (brun wsid s t).1.pending := by
  induction t generalizing s with
  | nil => exact ⟨rfl, hp⟩
  | cons e rest ih =>
    have hfin' : lookupA (brun wsid (bstep wsid s e).1 rest).1.store j = none := hfin
    have key : lookupA (bstep wsid s e).1.store j = none ∧ j ∉ (bstep wsid s e).1.pending ∧
        (bstep wsid s e).2.countP (isTermSendFor j) = 0 := by
      cases e with
      | dispatch j' a inp conn =>
        cases hc : createJob s.store j' wsid a inp with
        | error u => exact ⟨by simpa [bstep, hc] using hs, by simpa [bstep, hc] using hp,
            by simp [bstep, hc, List.countP_cons, isTermSendFor_create, isTermSendFor_uncaught]⟩
        | ok store1 =>
          obtain ⟨w, hw, hl, rfl⟩ := createJob_ok _ _ _ _ _ _ hc
          by_cases hjj : j' = j
          · subst hjj
            exfalso
            have hisSome : (lookupA (bstep wsid s (.dispatch j' a inp conn)).1.store j').isSome
                = true := by
              simp only [bstep, hc]
              simp [lookupA]
            have hmono := brun_store_isSome wsid rest _ j' hisSome
            rw [hfin'] at hmono
            simp at hmono
          · refine ⟨?_, ?_, ?_⟩
            · simp only [bstep, hc]
              simp only [lookupA, if_neg hjj]
              exact hs
            · simp only [bstep, hc]
              intro hmem
              rcases List.mem_cons.mp hmem with hmem | hmem
              · exact hjj hmem.symm
              · exact hp hmem
            · simp [bstep, hc, List.countP_cons, isTermSendFor_create, isTermSendFor_progress, isTermSendFor_exec]
      | cancel j' =>
        cases ha : lookupA s.active j' with
        | none => exact ⟨by simpa [bstep, ha] using hs, by simpa [bstep, ha] using hp,
            by simp [bstep, ha]⟩
        | some job =>
          refine ⟨?_, by simpa [bstep, ha] using hp, by simp [bstep, ha]⟩
          simp only [bstep, ha]
          unfold updateJob
          exact lookupA_updateA_none _ _ _ _ hs
      | resolve j' r conn =>
        by_cases hpr : j' ∈ s.pending
        · have hjj : j' ≠ j := fun hc => hp (hc ▸ hpr)
          cases r with
          | ok out =>
            refine ⟨?_, ?_, ?_⟩
            · simp only [bstep, if_pos hpr]
              unfold updateJob
              exact lookupA_updateA_none _ _ _ _ hs
            · simp only [bstep, if_pos hpr]
              intro hmem
              exact hp (List.mem_of_mem_filter hmem)
            · simp only [bstep, if_pos hpr]
              simp [isTermSendFor, hjj]
          | err m =>
            refine ⟨?_, ?_, ?_⟩
            · simp only [bstep, if_pos hpr]
              unfold updateJob
              exact lookupA_updateA_none _ _ _ _ hs
            · simp only [bstep, if_pos hpr]
              intro hmem
              exact hp (List.mem_of_mem_filter hmem)
            · simp only [bstep, if_pos hpr]
              simp [isTermSendFor, hjj]
        · cases r with
          | ok out =>
            exact ⟨by simpa [bstep, if_neg hpr] using hs,
                   by simpa [bstep, if_neg hpr] using hp, by simp [bstep, if_neg hpr]⟩
          | err m =>
            exact ⟨by simpa [bstep, if_neg hpr] using hs,
                   by simpa [bstep, if_neg hpr] using hp, by simp [bstep, if_neg hpr]⟩
    obtain ⟨k1, k2, k3⟩ := key
    obtain ⟨ht, hpend⟩ := ih (bstep wsid s e).1 k1 k2 hfin'
    constructor
    · show ((bstep wsid s e).2 ++ (brun wsid (bstep wsid s e).1 rest).2).countP
          (isTermSendFor j) = 0
      rw [List.countP_append, k3, ht]
    · exact hpend

/-- Between its dispatch and its executor settlement, a job stays in
the pending set, keeps a row in the store, and no terminal message for
it is sent — whatever other events (cancel included) interleave. -/
theorem c3_pre (wsid : Option String) (j : String) (u : List BEvent) (s : BState)
    (hno : u.all (fun e => !(isResolveOf j e)) = true)
    (hp : j ∈ s.pending) (hs : (lookupA s.store j).isSome = true) :
    j ∈ (brun wsid s u).1.pending ∧ ((lookupA (brun wsid s u).1.store j).isSome = true) ∧
    (brun wsid s u).2.countP (isTermSendFor j) = 0 := by
  induction u generalizing s with
  | nil => exact ⟨hp, hs, rfl⟩
  | cons e rest ih =>
    rw [List.all_cons, Bool.and_eq_true] at hno
    obtain ⟨hne, hrest⟩ := hno
    have hnr : isResolveOf j e = false := by
      cases hre : isResolveOf j e
      · rfl
      · rw [hre] at hne; simp at hne
    have key : j ∈ (bstep wsid s e).1.pending ∧
        ((lookupA (bstep wsid s e).1.store j).isSome = true) ∧
        (bstep wsid s e).2.countP (isTermSendFor j) = 0 := by
      cases e with
      | dispatch j' a inp conn =>
        cases hc : createJob s.store j' wsid a inp with
        | error u' => exact ⟨by simpa [bstep, hc] using hp, by simpa [bstep, hc] using hs,
            by simp [bstep, hc, List.countP_cons, isTermSendFor_create, isTermSendFor_uncaught]⟩
        | ok store1 =>
          obtain ⟨w, hw, hl, rfl⟩ := createJob_ok _ _ _ _ _ _ hc
          have hjj : j' ≠ j := by
            intro hc'
            subst hc'
            rw [hl] at hs
            simp at hs
          refine ⟨?_, ?_, ?_⟩
          · simp only [bstep, hc]
            exact List.mem_cons_of_mem _ hp
          · simp only [bstep, hc]
            exact lookupA_cons_isSome _ _ _ _ hs
          · simp [bstep, hc, List.countP_cons, isTermSendFor_create, isTermSendFor_progress, isTermSendFor_exec]
      | cancel j' =>
        cases ha : lookupA s.active j' with
        | none => exact ⟨by simpa [bstep, ha] using hp, by simpa [bstep, ha] using hs,
            by simp [bstep, ha]⟩
        | some job =>
          refine ⟨by simpa [bstep, ha] using hp, ?_, by simp [bstep, ha]⟩
          simp only [bstep, ha]
          unfold updateJob
          rw [lookupA_updateA_isSome]
          exact hs
      | resolve j' r conn =>
        have hjj : j' ≠ j := by
          intro hc'
          subst hc'
          simp [isResolveOf] at hnr
        by_cases hpr : j' ∈ s.pending
        · cases r with
          | ok out =>
            refine ⟨?_, ?_, ?_⟩
            · simp only [bstep, if_pos hpr]
              exact List.mem_filter.mpr ⟨hp, by simp [bne_iff_ne]; exact fun hc' => hjj hc'.symm⟩
            · simp only [bstep, if_pos hpr]
              unfold updateJob
              rw [lookupA_updateA_isSome]
              exact hs
            · simp only [bstep, if_pos hpr]
              simp [isTermSendFor, hjj]
          | err m =>
            refine ⟨?_, ?_, ?_⟩
            · simp only [bstep, if_pos hpr]
              exact List.mem_filter.mpr ⟨hp, by simp [bne_iff_ne]; exact fun hc' => hjj hc'.symm⟩
            · simp only [bstep, if_pos hpr]
              unfold updateJob
              rw [lookupA_updateA_isSome]
              exact hs
            · simp only [bstep, if_pos hpr]
              simp [isTermSendFor, hjj]
        · cases r with
          | ok out =>
            exact ⟨by simpa [bstep, if_neg hpr] using hp,
                   by simpa [bstep, if_neg hpr] using hs, by simp [bstep, if_neg hpr]⟩
          | err m =>
            exact ⟨by simpa [bstep, if_neg hpr] using hp,
                   by simpa [bstep, if_neg hpr] using hs, by simp [bstep, if_neg hpr]⟩
    obtain ⟨k1, k2, k3⟩ := key
    obtain ⟨h1, h2, h3⟩ := ih (bstep wsid s e).1 hrest k1 k2
    refine ⟨h1, h2, ?_⟩
    show ((bstep wsid s e).2 ++ (brun wsid (bstep wsid s e).1 rest).2).countP
        (isTermSendFor j) = 0
    rw [List.countP_append, k3, h3]

/-- After its terminal transition, a job keeps its stored status, stays
out of the pending set and of the active map, and no further terminal
message for it is sent — whatever events follow. -/
theorem c3_post (wsid : Option String) (j T : String) (v : List BEvent) (s : BState)
    (h1 : j ∉ s.pending) (h2 : statusOf s j = some T) (h3 : lookupA s.active j = none) :
    (j ∉ (brun wsid s v).1.pending ∧ statusOf (brun wsid s v).1 j = some T ∧
     lookupA (brun wsid s v).1.active j = none) ∧
    (brun wsid s v).2.countP (isTermSendFor j) = 0 := by
  induction v generalizing s with
  | nil => exact ⟨⟨h1, h2, h3⟩, rfl⟩
  | cons e rest ih =>
    have hsrow : ∃ r, lookupA s.store j = some r := by
      unfold statusOf at h2
      cases hl : lookupA s.store j with
      | none => rw [hl] at h2; simp at h2
      | some r => exact ⟨r, rfl⟩
    obtain ⟨row, hrow⟩ := hsrow
    have key : j ∉ (bstep wsid s e).1.pending ∧ statusOf (bstep wsid s e).1 j = some T ∧
        lookupA (bstep wsid s e).1.active j = none ∧
        (bstep wsid s e).2.countP (isTermSendFor j) = 0 := by
      cases e with
      | dispatch j' a inp conn =>
        cases hc : createJob s.store j' wsid a inp with
        | error u' =>
          exact ⟨by simpa [bstep, hc] using h1, by simpa [bstep, hc] using h2,
                 by simpa [bstep, hc] using h3, by simp [bstep, hc, List.countP_cons, isTermSendFor_create, isTermSendFor_uncaught]⟩
        | ok store1 =>
          obtain ⟨w, hw, hl, rfl⟩ := createJob_ok _ _ _ _ _ _ hc
          have hjj : j' ≠ j := by
            intro hc'
            subst hc'
            rw [hl] at hrow
            exact Option.noConfusion hrow
          refine ⟨?_, ?_, ?_, by simp [bstep, hc, List.countP_cons, isTermSendFor_create, isTermSendFor_progress, isTermSendFor_exec]⟩
          · simp only [bstep, hc]
            intro hmem
            rcases List.mem_cons.mp hmem with hmem | hmem
            · exact hjj hmem.symm
            · exact h1 hmem
          · simp only [bstep, hc]
            unfold statusOf at h2 ⊢
            simp only [lookupA, if_neg hjj]
            exact h2
          · simp only [bstep, hc]
            rw [lookupA_setA_ne _ _ _ _ hjj]
            exact h3
      | cancel j' =>
        cases ha : lookupA s.active j' with
        | none =>
          exact ⟨by simpa [bstep, ha] using h1, by simpa [bstep, ha] using h2,
                 by simpa [bstep, ha] using h3, by simp [bstep, ha]⟩
        | some job =>
          have hjj : j' ≠ j := by
            intro hc'
            subst hc'
            rw [h3] at ha
            exact Option.noConfusion ha
          refine ⟨by simpa [bstep, ha] using h1, ?_, ?_, by simp [bstep, ha]⟩
          · simp only [bstep, ha]
            unfold statusOf at h2 ⊢
            unfold updateJob
            rw [lookupA_updateA_ne _ _ _ _ hjj]
            exact h2
          · simp only [bstep, ha]
            rw [lookupA_eraseA_ne _ _ _ hjj]
            exact h3
      | resolve j' r conn =>
        by_cases hpr : j' ∈ s.pending
        · have hjj : j' ≠ j := by
            intro hc'
            subst hc'
            exact h1 hpr
          cases r with
          | ok out =>
            refine ⟨?_, ?_, ?_, ?_⟩
            · simp only [bstep, if_pos hpr]
              intro hmem
              exact h1 (List.mem_of_mem_filter hmem)
            · simp only [bstep, if_pos hpr]
              unfold statusOf at h2 ⊢
              unfold updateJob
              rw [lookupA_updateA_ne _ _ _ _ hjj]
              exact h2
            · simp only [bstep, if_pos hpr]
              rw [lookupA_eraseA_ne _ _ _ hjj]
              exact h3
            · simp only [bstep, if_pos hpr]
              simp [isTermSendFor, hjj]
          | err m =>
            refine ⟨?_, ?_, ?_, ?_⟩
            · simp only [bstep, if_pos hpr]
              intro hmem
              exact h1 (List.mem_of_mem_filter hmem)
            · simp only [bstep, if_pos hpr]
              unfold statusOf at h2 ⊢
              unfold updateJob
              rw [lookupA_updateA_ne _ _ _ _ hjj]
              exact h2
            · simp only [bstep, if_pos hpr]
              rw [lookupA_eraseA_ne _ _ _ hjj]
              exact h3
            · simp only [bstep, if_pos hpr]
              simp [isTermSendFor, hjj]
        · cases r with
          | ok out =>
            exact ⟨by simpa [bstep, if_neg hpr] using h1, by simpa [bstep, if_neg hpr] using h2,
                   by simpa [bstep, if_neg hpr] using h3, by simp [bstep, if_neg hpr]⟩
          | err m =>
            exact ⟨by simpa [bstep, if_neg hpr] using h1, by simpa [bstep, if_neg hpr] using h2,
                   by simpa [bstep, if_neg hpr] using h3, by simp [bstep, if_neg hpr]⟩
    obtain ⟨k1, k2, k3, k4⟩ := key
    obtain ⟨⟨m1, m2, m3⟩, m4⟩ := ih (bstep wsid s e).1 k1 k2 k3
    refine ⟨⟨m1, m2, m3⟩, ?_⟩
    show ((bstep wsid s e).2 ++ (brun wsid (bstep wsid s e).1 rest).2).countP
        (isTermSendFor j) = 0
    rw [List.countP_append, k4, m4]

theorem countP_complete_dispatch_out (j a : String) (c : Bool) :
    ([BOut.createJobCalled j, .sentMsg (.progress j a) c, .execStarted j]).countP
      (isCompleteSendFor j) = 0 := rfl

theorem countP_failed_dispatch_out (j a : String) (c : Bool) :
    ([BOut.createJobCalled j, .sentMsg (.progress j a) c, .execStarted j]).countP
      (isFailedSendFor j) = 0 := rfl

theorem countP_complete_single (j out : String) (c' : Bool) :
    ([BOut.sentMsg (.complete j out) c']).countP (isCompleteSendFor j) = 1 := by
  simp [List.countP_cons, isCompleteSendFor]

theorem countP_failed_of_complete_single (j out : String) (c' : Bool) :
    ([BOut.sentMsg (.complete j out) c']).countP (isFailedSendFor j) = 0 := rfl

theorem countP_failed_single (j m : String) (c' : Bool) :
    ([BOut.sentMsg (.failed j m) c']).countP (isFailedSendFor j) = 1 := by
  simp [List.countP_cons, isFailedSendFor]

theorem countP_complete_of_failed_single (j m : String) (c' : Bool) :
    ([BOut.sentMsg (.failed j m) c']).countP (isCompleteSendFor j) = 0 := rfl

theorem bstep_resolve_ok (wsid : Option String) (s : BState) (j out : String) (c' : Bool)
    (hp : j ∈ s.pending) :
    bstep wsid s (.resolve j (.ok out) c') =
      ({ active := eraseA s.active j,
         store := updateJob s.store j "complete" (some out) none,
         pending := s.pending.filter (fun x => x != j) },
       [.sentMsg (.complete j out) c']) := by
  simp [bstep, if_pos hp]

theorem bstep_resolve_err (wsid : Option String) (s : BState) (j m : String) (c' : Bool)
    (hp : j ∈ s.pending) :
    bstep wsid s (.resolve j (.err m) c') =
      ({ active := eraseA s.active j,
         store := updateJob s.store j "failed" none (some m),
         pending := s.pending.filter (fun x => x != j) },
       [.sentMsg (.failed j m) c']) := by
  simp [bstep, if_pos hp]

/-- Core of the terminal-outcome claim, from the dispatch onward: from a
state in which the job id is fresh, a dispatch followed by arbitrary
non-settling events, the settlement, and an arbitrary tail yields
exactly one terminal send matching the settlement, the matching stored
status, and a job id outside the active set. -/
theorem c3_core (w : String) (s0 : BState) (u v : List BEvent) (j a inp : String)
    (c c' : Bool) (r : ExecOutcome)
    (h0 : lookupA s0.store j = none)
    (hu : u.all (fun y => !(isResolveOf j y)) = true) :
    (((brun (some w) s0 (.dispatch j a inp c :: (u ++ .resolve j r c' :: v))).2.countP
        (isCompleteSendFor j) = 1 ∧
      (brun (some w) s0 (.dispatch j a inp c :: (u ++ .resolve j r c' :: v))).2.countP
        (isFailedSendFor j) = 0 ∧
      statusOf (brun (some w) s0 (.dispatch j a inp c :: (u ++ .resolve j r c' :: v))).1 j =
        some "complete") ∨
     ((brun (some w) s0 (.dispatch j a inp c :: (u ++ .resolve j r c' :: v))).2.countP
        (isCompleteSendFor j) = 0 ∧
      (brun (some w) s0 (.dispatch j a inp c :: (u ++ .resolve j r c' :: v))).2.countP
        (isFailedSendFor j) = 1 ∧
      statusOf (brun (some w) s0 (.dispatch j a inp c :: (u ++ .resolve j r c' :: v))).1 j =
        some "failed")) ∧
    lookupA (brun (some w) s0 (.dispatch j a inp c :: (u ++ .resolve j r c' :: v))).1.active j
      = none := by
  have hcj : createJob s0.store j (some w) a inp =
      .ok ((j, ⟨w, a, "running", inp, none, none⟩) :: s0.store) := by
    unfold createJob
    simp only [h0]
  have hsd_pend : j ∈ (bstep (some w) s0 (.dispatch j a inp c)).1.pending := by
    simp [bstep, hcj]
  have hsd_store :
      (lookupA (bstep (some w) s0 (.dispatch j a inp c)).1.store j).isSome = true := by
    simp [bstep, hcj, lookupA]
  have hdOut : (bstep (some w) s0 (.dispatch j a inp c)).2 =
      [.createJobCalled j, .sentMsg (.progress j a) c, .execStarted j] := by
    simp [bstep, hcj]
  obtain ⟨hs1_pend, hs1_store, hu_count⟩ :=
    c3_pre (some w) j u (bstep (some w) s0 (.dispatch j a inp c)).1 hu hsd_pend hsd_store
  obtain ⟨row1, hrow1⟩ := Option.isSome_iff_exists.mp hs1_store
  have h1 : brun (some w) s0 (.dispatch j a inp c :: (u ++ .resolve j r c' :: v)) =
      ((brun (some w) (bstep (some w) s0 (.dispatch j a inp c)).1
          (u ++ .resolve j r c' :: v)).1,
       (bstep (some w) s0 (.dispatch j a inp c)).2 ++
       (brun (some w) (bstep (some w) s0 (.dispatch j a inp c)).1
          (u ++ .resolve j r c' :: v)).2) := rfl
  cases r with
  | ok out =>
    have hstepeq := bstep_resolve_ok (some w)
        (brun (some w) (bstep (some w) s0 (.dispatch j a inp c)).1 u).1 j out c' hs1_pend
    have hT : statusOf (bstep (some w)
        (brun (some w) (bstep (some w) s0 (.dispatch j a inp c)).1 u).1
        (.resolve j (.ok out) c')).1 j = some "complete" := by
      rw [hstepeq]
      simp [statusOf, updateJob, lookupA_updateA_self, hrow1]
    have hTp : j ∉ (bstep (some w)
        (brun (some w) (bstep (some w) s0 (.dispatch j a inp c)).1 u).1
        (.resolve j (.ok out) c')).1.pending := by
      rw [hstepeq]
      intro hmem
      have hfalse := (List.mem_filter.mp hmem).2
      simp at hfalse
    have hTa : lookupA (bstep (some w)
        (brun (some w) (bstep (some w) s0 (.dispatch j a inp c)).1 u).1
        (.resolve j (.ok out) c')).1.active j = none := by
      rw [hstepeq]
      exact lookupA_eraseA_self _ _
    have hTout : (bstep (some w)
        (brun (some w) (bstep (some w) s0 (.dispatch j a inp c)).1 u).1
        (.resolve j (.ok out) c')).2 = [.sentMsg (.complete j out) c'] := by
      rw [hstepeq]
    obtain ⟨⟨hv_pend, hv_stat, hv_act⟩, hv_count⟩ :=
      c3_post (some w) j "complete" v _ hTp hT hTa
    have houts : (brun (some w) s0
        (.dispatch j a inp c :: (u ++ .resolve j (.ok out) c' :: v))).2 =
        (bstep (some w) s0 (.dispatch j a inp c)).2 ++
        ((brun (some w) (bstep (some w) s0 (.dispatch j a inp c)).1 u).2 ++
         ((bstep (some w)
            (brun (some w) (bstep (some w) s0 (.dispatch j a inp c)).1 u).1
            (.resolve j (.ok out) c')).2 ++
          (brun (some w) (bstep (some w)
            (brun (some w) (bstep (some w) s0 (.dispatch j a inp c)).1 u).1
            (.resolve j (.ok out) c')).1 v).2)) := by
      rw [h1, brun_append]
      rfl
    have hstate : (brun (some w) s0
        (.dispatch j a inp c :: (u ++ .resolve j (.ok out) c' :: v))).1 =
        (brun (some w) (bstep (some w)
          (brun (some w) (bstep (some w) s0 (.dispatch j a inp c)).1 u).1
          (.resolve j (.ok out) c')).1 v).1 := by
      rw [h1, brun_append]
      rfl
    refine ⟨Or.inl ⟨?_, ?_, ?_⟩, ?_⟩
    · rw [houts, List.countP_append, List.countP_append, List.countP_append,
         hdOut, countP_complete_dispatch_out,
         (term_count_zero_components j _ hu_count).1,
         hTout, countP_complete_single,
         (term_count_zero_components j _ hv_count).1]
    · rw [houts, List.countP_append, List.countP_append, List.countP_append,
         hdOut, countP_failed_dispatch_out,
         (term_count_zero_components j _ hu_count).2,
         hTout, countP_failed_of_complete_single,
         (term_count_zero_components j _ hv_count).2]
    · rw [hstate]
      exact hv_stat
    · rw [hstate]
      exact hv_act
  | err m =>
    have hstepeq := bstep_resolve_err (some w)
        (brun (some w) (bstep (some w) s0 (.dispatch j a inp c)).1 u).1 j m c' hs1_pend
    have hT : statusOf (bstep (some w)
        (brun (some w) (bstep (some w) s0 (.dispatch j a inp c)).1 u).1
        (.resolve j (.err m) c')).1 j = some "failed" := by
      rw [hstepeq]
      simp [statusOf, updateJob, lookupA_updateA_self, hrow1]
    have hTp : j ∉ (bstep (some w)
        (brun (some w) (bstep (some w) s0 (.dispatch j a inp c)).1 u).1
        (.resolve j (.err m) c')).1.pending := by
      rw [hstepeq]
      intro hmem
      have hfalse := (List.mem_filter.mp hmem).2
      simp at hfalse
    have hTa : lookupA (bstep (some w)
        (brun (some w) (bstep (some w) s0 (.dispatch j a inp c)).1 u).1
        (.resolve j (.err m) c')).1.active j = none := by
      rw [hstepeq]
      exact lookupA_eraseA_self _ _
    have hTout : (bstep (some w)
        (brun (some w) (bstep (some w) s0 (.dispatch j a inp c)).1 u).1
        (.resolve j (.err m) c')).2 = [.sentMsg (.failed j m) c'] := by
      rw [hstepeq]
    obtain ⟨⟨hv_pend, hv_stat, hv_act⟩, hv_count⟩ :=
      c3_post (some w) j "failed" v _ hTp hT hTa
    have houts : (brun (some w) s0
        (.dispatch j a inp c :: (u ++ .resolve j (.err m) c' :: v))).2 =
        (bstep (some w) s0 (.dispatch j a inp c)).2 ++
        ((brun (some w) (bstep (some w) s0 (.dispatch j a inp c)).1 u).2 ++
         ((bstep (some w)
            (brun (some w) (bstep (some w) s0 (.dispatch j a inp c)).1 u).1
            (.resolve j (.err m) c')).2 ++
          (brun (some w) (bstep (some w)
            (brun (some w) (bstep (some w) s0 (.dispatch j a inp c)).1 u).1
            (.resolve j (.err m) c')).1 v).2)) := by
      rw [h1, brun_append]
      rfl
    have hstate : (brun (some w) s0
        (.dispatch j a inp c :: (u ++ .resolve j (.err m) c' :: v))).1 =
        (brun (some w) (bstep (some w)
          (brun (some w) (bstep (some w) s0 (.dispatch j a inp c)).1 u).1
          (.resolve j (.err m) c')).1 v).1 := by
      rw [h1, brun_append]
      rfl
    refine ⟨Or.inr ⟨?_, ?_, ?_⟩, ?_⟩
    · rw [houts, List.countP_append, List.countP_append, List.countP_append,
         hdOut, countP_complete_dispatch_out,
         (term_count_zero_components j _ hu_count).1,
         hTout, countP_complete_of_failed_single,
         (term_count_zero_components j _ hv_count).1]
    · rw [houts, List.countP_append, List.countP_append, List.countP_append,
         hdOut, countP_failed_dispatch_out,
         (term_count_zero_components j _ hu_count).2,
         hTout, countP_failed_single,
         (term_count_zero_components j _ hv_count).2]
    · rw [hstate]
      exact hv_stat
    · rw [hstate]
      exact hv_act

/-- C3: for every non-duplicate job_dispatch (job id absent from the
store) whose executor eventually settles and for which no cancel
arrives, exactly one of the two terminal outcomes occurs — one
job_complete send attempt together with the stored status complete, or
one job_failed send attempt together with the stored status failed,
never both and never neither — the job ends outside the active set, and
the terminal bookkeeping is independent of whether the transport is
connected at settlement time (all connection flags are universally
quantified, and the state reached by the settlement step does not
depend on them; the send attempt is counted whether or not the frame
could be written). -/
theorem c3_exactly_one_terminal (w : String) (t1 t2 : List BEvent)
    (j a inp : String) (c : Bool)
    (hfresh : lookupA (brun (some w) BState.init t1).1.store j = none)
    (hres : t2.any (isResolveOf j) = true)
    (hnocancel : t2.all (fun e => !(isCancelOf j e)) = true) :
    (((brun (some w) BState.init (t1 ++ .dispatch j a inp c :: t2)).2.countP
        (isCompleteSendFor j) = 1 ∧
      (brun (some w) BState.init (t1 ++ .dispatch j a inp c :: t2)).2.countP
        (isFailedSendFor j) = 0 ∧
      statusOf (brun (some w) BState.init (t1 ++ .dispatch j a inp c :: t2)).1 j =
        some "complete") ∨
     ((brun (some w) BState.init (t1 ++ .dispatch j a inp c :: t2)).2.countP
        (isCompleteSendFor j) = 0 ∧
      (brun (some w) BState.init (t1 ++ .dispatch j a inp c :: t2)).2.countP
        (isFailedSendFor j) = 1 ∧
      statusOf (brun (some w) BState.init (t1 ++ .dispatch j a inp c :: t2)).1 j =
        some "failed")) ∧
    lookupA (brun (some w) BState.init (t1 ++ .dispatch j a inp c :: t2)).1.active j = none ∧
    (∀ (s' : BState) (r : ExecOutcome) (c1 c2 : Bool),
      (bstep (some w) s' (.resolve j r c1)).1 = (bstep (some w) s' (.resolve j r c2)).1) := by
  have hconn : ∀ (s' : BState) (r : ExecOutcome) (c1 c2 : Bool),
      (bstep (some w) s' (.resolve j r c1)).1 = (bstep (some w) s' (.resolve j r c2)).1 := by
    intro s' r c1 c2
    by_cases hp : j ∈ s'.pending
    · cases r with
      | ok out => rw [bstep_resolve_ok _ _ _ _ _ hp, bstep_resolve_ok _ _ _ _ _ hp]
      | err m => rw [bstep_resolve_err _ _ _ _ _ hp, bstep_resolve_err _ _ _ _ _ hp]
    · cases r with
      | ok out => simp [bstep, if_neg hp]
      | err m => simp [bstep, if_neg hp]
  have hfr := c3_fresh (some w) j t1 BState.init rfl (by simp [BState.init]) hfresh
  obtain ⟨u, e, v, ht2, pe, hu⟩ := exists_first_split (isResolveOf j) t2 hres
  obtain ⟨r, c', rfl⟩ : ∃ r0 c0, e = BEvent.resolve j r0 c0 := by
    cases e with
    | dispatch x y z cc => simp [isResolveOf] at pe
    | cancel x => simp [isResolveOf] at pe
    | resolve j0 r0 c0 =>
      have hj0 : j0 = j := by simpa [isResolveOf] using pe
      exact ⟨r0, c0, by rw [hj0]⟩
  subst ht2
  have hcore := c3_core w (brun (some w) BState.init t1).1 u v j a inp c c' r hfresh hu
  have hzero := term_count_zero_components j _ hfr.1
  have hsplit := brun_append (some w) BState.init t1
    (.dispatch j a inp c :: (u ++ .resolve j r c' :: v))
  rw [hsplit]
  refine ⟨?_, hcore.2, hconn⟩
  rcases hcore.1 with ⟨d1, d2, d3⟩ | ⟨d1, d2, d3⟩
  · exact Or.inl ⟨by rw [List.countP_append, hzero.1, d1],
                  by rw [List.countP_append, hzero.2, d2], d3⟩
  · exact Or.inr ⟨by rw [List.countP_append, hzero.1, d1],
                  by rw [List.countP_append, hzero.2, d2], d3⟩

/-- C3 witness: a dispatch immediately settled with success yields
exactly one job_complete, a store row complete, and an empty active
set; hypotheses discharged at the concrete trace. -/
theorem c3_exactly_one_terminal_witness :
    (((brun (some "w1") BState.init
          ([] ++ .dispatch "j1" "hunter" "find leads" true ::
            [.resolve "j1" (.ok "draft A") true])).2.countP
        (isCompleteSendFor "j1") = 1 ∧
      (brun (some "w1") BState.init
          ([] ++ .dispatch "j1" "hunter" "find leads" true ::
            [.resolve "j1" (.ok "draft A") true])).2.countP
        (isFailedSendFor "j1") = 0 ∧
      statusOf (brun (some "w1") BState.init
          ([] ++ .dispatch "j1" "hunter" "find leads" true ::
            [.resolve "j1" (.ok "draft A") true])).1 "j1" = some "complete") ∨
     ((brun (some "w1") BState.init
          ([] ++ .dispatch "j1" "hunter" "find leads" true ::
            [.resolve "j1" (.ok "draft A") true])).2.countP
        (isCompleteSendFor "j1") = 0 ∧
      (brun (some "w1") BState.init
          ([] ++ .dispatch "j1" "hunter" "find leads" true ::
            [.resolve "j1" (.ok "draft A") true])).2.countP
        (isFailedSendFor "j1") = 1 ∧
      statusOf (brun (some "w1") BState.init
          ([] ++ .dispatch "j1" "hunter" "find leads" true ::
            [.resolve "j1" (.ok "draft A") true])).1 "j1" = some "failed")) ∧
    lookupA (brun (some "w1") BState.init
        ([] ++ .dispatch "j1" "hunter" "find leads" true ::
          [.resolve "j1" (.ok "draft A") true])).1.active "j1" = none ∧
    (∀ (s' : BState) (r : ExecOutcome) (c1 c2 : Bool),
      (bstep (some "w1") s' (.resolve "j1" r c1)).1 =
        (bstep (some "w1") s' (.resolve "j1" r c2)).1) :=
  c3_exactly_one_terminal "w1" [] [.resolve "j1" (.ok "draft A") true]
    "j1" "hunter" "find leads" true (by decide) (by decide) (by decide)

end BoltaClaw
